import Mathlib

/-!
Verification of the conversational-agent backend
(`backend/agent/utils.py`, `backend/agent/graph.py`, `backend/routes/chat.py`,
`backend/routes/thread.py`, `backend/lib/external_store_langgraph/thread_routes.py`).

The Python data model is embedded shallowly: LangChain messages become the
`Msg` inductive, tool-call dicts become `ToolCall`, and arbitrary Python/JSON
values (tool arguments, approval payloads) become `PyVal`.
-/

namespace Backend

/-- Python/JSON values as used for tool arguments and approval decision
payloads. `vnone` is Python `None`. -/
inductive PyVal where
  | vnone
  | vbool (b : Bool)
  | vint (n : Int)
  | vstr (s : String)
  | vlist (xs : List PyVal)
  | vdict (fields : List (String × PyVal))

/-- Python `v == some_string` (equality probe against a string literal). -/
def PyVal.isStr (v : PyVal) (s : String) : Bool :=
  match v with
  | .vstr t => t == s
  | _ => false

/-- Python `v is None`. -/
def PyVal.isNone : PyVal → Bool
  | .vnone => true
  | _ => false

/-- Python truthiness (`bool(v)`). -/
def PyVal.truthy : PyVal → Bool
  | .vnone => false
  | .vbool b => b
  | .vint n => n != 0
  | .vstr s => s != ""
  | .vlist xs => !xs.isEmpty
  | .vdict fields => !fields.isEmpty

/-- Python `dict.get(key, default)`; a non-dict value yields the default. -/
def PyVal.get (v : PyVal) (key : String) (default : PyVal) : PyVal :=
  match v with
  | .vdict fields =>
    match fields.find? (fun kv => kv.1 == key) with
    | some kv => kv.2
    | none => default
  | _ => default

/-- Python `isinstance(v, dict)`. -/
def PyVal.isDict : PyVal → Bool
  | .vdict _ => true
  | _ => false

/-- A LangChain tool-call dict `{id, name, args}`; `id` is `Optional[str]`. -/
structure ToolCall where
  id : Option String
  name : String
  args : PyVal

/-- LangChain messages: `SystemMessage`, `HumanMessage`, `AIMessage`
(with its `tool_calls` list) and `ToolMessage` (with its `tool_call_id`). -/
inductive Msg where
  | system (content : String)
  | human (content : String)
  | ai (content : String) (toolCalls : List ToolCall)
  | tool (content : String) (toolCallId : String)

/-- `isinstance(m, ToolMessage)`. -/
def Msg.isTool : Msg → Bool
  | .tool _ _ => true
  | _ => false

/-- The `content` attribute of a message. -/
def Msg.contentOf : Msg → String
  | .system c => c
  | .human c => c
  | .ai c _ => c
  | .tool c _ => c

/-- `tool_msg.tool_call_id in tool_call_ids` — the tool message answers one of
the assistant's requested tool calls. -/
def answersCall (toolCalls : List ToolCall) : Msg → Bool
  | .tool _ tid => toolCalls.any (fun tc => tc.id == some tid)
  | _ => false

/-- `found_tool_responses == tool_call_ids` — every requested `tool_call_id`
is answered by one of the collected tool messages (the collected side is
always a subset, so set equality reduces to this inclusion). -/
def allAnswered (toolCalls : List ToolCall) (responses : List Msg) : Bool :=
  toolCalls.all (fun tc => responses.any (fun r =>
    match r with
    | .tool _ tid => tc.id == some tid
    | _ => false))

/-- `backend/agent/utils.py` lines 265-347, `sanitize_and_validate_messages`:
scan left to right; an `AIMessage` with tool calls is kept together with the
matching `ToolMessage`s of the immediately following tool-message run iff
every requested id is answered there, and is dropped with its partial answers
otherwise; orphaned `ToolMessage`s are dropped; other messages pass through. -/
def sanitize_and_validate_messages : List Msg → List Msg
  | [] => []
  | Msg.system c :: rest => Msg.system c :: sanitize_and_validate_messages rest
  | Msg.human c :: rest => Msg.human c :: sanitize_and_validate_messages rest
  | Msg.tool _ _ :: rest => sanitize_and_validate_messages rest
  | Msg.ai c tcs :: rest =>
    if tcs.isEmpty then Msg.ai c tcs :: sanitize_and_validate_messages rest
    else if allAnswered tcs ((rest.takeWhile Msg.isTool).filter (answersCall tcs)) then
      Msg.ai c tcs ::
        ((rest.takeWhile Msg.isTool).filter (answersCall tcs)
          ++ sanitize_and_validate_messages (rest.dropWhile Msg.isTool))
    else
      sanitize_and_validate_messages (rest.dropWhile Msg.isTool)
termination_by l => l.length
decreasing_by
  all_goals simp only [List.length_cons]
  · omega
  · omega
  · omega
  · omega
  · exact Nat.lt_succ_of_le (List.Sublist.length_le (List.dropWhile_sublist _))
  · exact Nat.lt_succ_of_le (List.Sublist.length_le (List.dropWhile_sublist _))

/-- Pairing checker for the sanitizer's output (§8 pairing invariant): the
list never starts a maximal tool-message run except immediately after an
assistant message with tool calls, every tool message of that run answers one
of that assistant's requests, and all of its requests are answered there. -/
def toolResponsesPaired : List Msg → Bool
  | [] => true
  | Msg.tool _ _ :: _ => false
  | Msg.ai _ tcs :: rest =>
    if tcs.isEmpty then toolResponsesPaired rest
    else
      (rest.takeWhile Msg.isTool).all (answersCall tcs)
        && allAnswered tcs (rest.takeWhile Msg.isTool)
        && toolResponsesPaired (rest.dropWhile Msg.isTool)
  | _ :: rest => toolResponsesPaired rest
termination_by l => l.length
decreasing_by
  all_goals simp only [List.length_cons]
  · omega
  · exact Nat.lt_succ_of_le (List.Sublist.length_le (List.dropWhile_sublist _))
  · omega

/-! ## Turn state machine routing (`backend/agent/graph.py`) -/

/-- `backend/agent/graph.py` line 20: tools that require human approval. -/
def DANGEROUS_TOOL_NAMES : List String := ["current_weather"]

/-- Routing outcome of `should_continue`: the strings "approval", "tools",
"end" returned to the conditional edge. -/
inductive Route where
  | approval
  | tools
  | stop
deriving DecidableEq, Repr

/-- `backend/agent/graph.py` lines 29-61, `should_continue`: inspect the last
message; an `AIMessage` with tool calls routes to approval when any call
names a dangerous tool and to plain tool execution otherwise; anything else
ends the turn. (`messages[-1]` raises on an empty list in Python; the agent
state always contains at least one message, and the theorems below assume
nonemptiness.) -/
def should_continue (messages : List Msg) : Route :=
  match messages.getLast? with
  | some (Msg.ai _ tcs) =>
    if tcs.isEmpty then Route.stop
    else if tcs.any (fun tc => DANGEROUS_TOOL_NAMES.contains tc.name) then Route.approval
    else Route.tools
  | _ => Route.stop

/-- The tool-call requests carried by a message: empty for non-assistant
messages and for assistant messages without tool calls. -/
def requestedToolCalls : Msg → List ToolCall
  | .ai _ tcs => tcs
  | _ => []

/-! ## Approval gate (`backend/agent/graph.py`, `approval_node`) -/

/-- `backend/agent/graph.py` lines 157-170: validate the resume payload into
`decisions_by_id`. Non-dict entries, falsy ids and decision values other than
approved/rejected are skipped. The Python dict is modelled as an association
list with the newest entry at the head, so a later entry for the same id
shadows an earlier one exactly as dict assignment does; each value is the
pair of the decision and `item.get("arguments", None)`. -/
def decisionsById (decisionsRaw : PyVal) : List (PyVal × PyVal × PyVal) :=
  match decisionsRaw with
  | PyVal.vlist items =>
    items.foldl
      (fun acc item =>
        match item with
        | PyVal.vdict _ =>
          let tcId := item.get "id" PyVal.vnone
          let decision := item.get "decision" PyVal.vnone
          if tcId.truthy && (decision.isStr "approved" || decision.isStr "rejected") then
            (tcId, decision, item.get "arguments" PyVal.vnone) :: acc
          else acc
        | _ => acc)
      []
  | _ => []

/-- `decisions_by_id.get(tc_id)` for the string id of a pending call: the
newest recorded decision whose key equals that string. -/
def lookupDecision (decisions : List (PyVal × PyVal × PyVal)) (tcid : String) :
    Option (PyVal × PyVal) :=
  (decisions.find? (fun e => e.1.isStr tcid)).map (fun e => e.2)

/-- `backend/agent/graph.py` lines 174-199, the per-call body of the filter
loop: safe calls are kept unchanged; a dangerous call is kept only when its id
is a nonempty string, its recorded decision is approved, and the effective
arguments (the recorded override, or the original `args` when the override is
`None`) form a JSON object, in which case those arguments replace `args`. -/
def approvalKeepCall (decisions : List (PyVal × PyVal × PyVal)) (tc : ToolCall) :
    Option ToolCall :=
  if !(DANGEROUS_TOOL_NAMES.contains tc.name) then some tc
  else
    match tc.id with
    | none => none
    | some tcid =>
      if tcid == "" then none
      else
        match lookupDecision decisions tcid with
        | none => none
        | some (decision, storedArgs) =>
          if !(decision.isStr "approved") then none
          else
            let overrideArgs := if storedArgs.isNone then tc.args else storedArgs
            if overrideArgs.isDict then some { tc with args := overrideArgs } else none

/-- `backend/agent/graph.py` lines 157-199: the filtered tool-call list the
approval node computes from the pending calls and the resume payload
(`approval.get("decisions", [])` is the only part of the payload read). -/
def apply_decision (calls : List ToolCall) (approval : PyVal) : List ToolCall :=
  calls.filterMap
    (approvalKeepCall (decisionsById (approval.get "decisions" (PyVal.vlist []))))

/-- `backend/agent/graph.py` lines 118-209, `approval_node`, as a function of
the state's messages and of the payload supplied when the `interrupt()` is
resumed. It returns the state update: no message at all, or the re-issued
assistant message (same content and, in Python, the same message id, so
`add_messages` replaces it in place) carrying only the allowed tool calls. -/
def approval_node (messages : List Msg) (resume : PyVal) : List Msg :=
  match messages.getLast? with
  | some (Msg.ai c tcs) =>
    if tcs.isEmpty then []
    else if (tcs.filter (fun tc => DANGEROUS_TOOL_NAMES.contains tc.name)).isEmpty then []
    else [Msg.ai c (apply_decision tcs resume)]
  | _ => []

/-! ## Safe tool execution loop (`backend/routes/chat.py`, `run_stream.event_stream`) -/

/-- A streamed tool-call state accumulated by the chunk loop (`tool_states`
entries, keyed by chunk index). -/
structure ToolState where
  toolCallId : String
  toolName : String
  args : PyVal
  argsText : String

/-- A tool capability: a result, or a raised exception (`Except.error`). -/
abbrev ToolRegistry := List (String × (PyVal → Except String PyVal))

/-- `backend/routes/chat.py` lines 103-108, `_find_tool`. -/
def find_tool (tools : ToolRegistry) (name : String) :
    Option (PyVal → Except String PyVal) :=
  (tools.find? (fun t => t.1 == name)).map (fun t => t.2)

/-- The error payload `dict(status=error, error=msg)` built for failed tool
invocations. -/
def errorPayload (msg : String) : PyVal :=
  PyVal.vdict [("status", PyVal.vstr "error"), ("error", PyVal.vstr msg)]

/-- `backend/routes/chat.py` lines 287-300: invoke a tool by name; an unknown
tool, or a tool that raises, yields the error payload together with the
`is_error` flag (the Python not-found message wraps the name in quotes,
elided here). -/
def invokeTool (tools : ToolRegistry) (name : String) (args : PyVal) : PyVal × Bool :=
  match find_tool tools name with
  | none => (errorPayload ("Tool " ++ name ++ " not found"), true)
  | some f =>
    match f args with
    | Except.ok r => (r, false)
    | Except.error e => (errorPayload e, true)

mutual
/-- `json.dumps` on embedded values (string escaping elided). -/
def PyVal.dump : PyVal → String
  | .vnone => "null"
  | .vbool true => "true"
  | .vbool false => "false"
  | .vint n => toString n
  | .vstr s => "\"" ++ s ++ "\""
  | .vlist xs => "[" ++ PyVal.dumpList xs ++ "]"
  | .vdict fs => "\x7b" ++ PyVal.dumpFields fs ++ "\x7d"

def PyVal.dumpList : List PyVal → String
  | [] => ""
  | [x] => PyVal.dump x
  | x :: y :: xs => PyVal.dump x ++ ", " ++ PyVal.dumpList (y :: xs)

def PyVal.dumpFields : List (String × PyVal) → String
  | [] => ""
  | [(k, v)] => "\"" ++ k ++ "\": " ++ PyVal.dump v
  | (k, v) :: f :: fs => "\"" ++ k ++ "\": " ++ PyVal.dump v ++ ", " ++ PyVal.dumpFields (f :: fs)
end

/-- `tool_name = tool_state["toolName"] or f"tool_..."` with the tool index
substituted (`backend/routes/chat.py` line 283). -/
def effectiveToolName (indexed : Nat × ToolState) : String :=
  if indexed.2.toolName == "" then "tool_" ++ toString indexed.1 else indexed.2.toolName

/-- One iteration of the execution loop (`backend/routes/chat.py` lines
281-348): the `ai_tool_calls` record and the tool-role message whose content
is `json.dumps(result)` and whose `tool_call_id` is the state's own id. -/
def roundEntry (tools : ToolRegistry) (indexed : Nat × ToolState) : ToolCall × Msg :=
  (⟨some indexed.2.toolCallId, effectiveToolName indexed, indexed.2.args⟩,
   Msg.tool (invokeTool tools (effectiveToolName indexed) indexed.2.args).1.dump
     indexed.2.toolCallId)

/-- `backend/routes/chat.py` lines 279-353: execute every accumulated tool
state (the Python iterates the `tool_states` dict in ascending index order;
the input list is that sorted enumeration), producing the assistant
`tool_calls` entries and the tool-role result messages positionally. -/
def executeToolRound (tools : ToolRegistry) (toolStates : List (Nat × ToolState)) :
    List ToolCall × List Msg :=
  (toolStates.map (fun s => (roundEntry tools s).1),
   toolStates.map (fun s => (roundEntry tools s).2))

/-- `backend/routes/chat.py` line 276, `if not tool_states: break`: the
model-call loop ends exactly when the model requested no tool calls; tool
failures never break it. -/
def loopBreaks (toolStates : List (Nat × ToolState)) : Bool :=
  toolStates.isEmpty

/-! ## History reconstruction (`backend/routes/thread.py` and
`backend/lib/external_store_langgraph/thread_routes.py`) -/

/-- `dict.get` on a message-id-keyed index built by
`_build_checkpoint_indexes`. -/
def lookupIndex {α : Type} (index : List (String × α)) (key : String) : Option α :=
  (index.find? (fun kv => kv.1 == key)).map (fun kv => kv.2)

/-- Python `if not checkpoint_id` applied to an `Optional[str]` value: `None`
and the empty string are falsy. -/
def truthyCheckpoint : Option String → Option String
  | some cp => if cp == "" then none else some cp
  | none => none

/-- `backend/routes/thread.py` lines 367-379 and the identical
`backend/lib/external_store_langgraph/thread_routes.py` lines 472-484,
`_resolve_edit_checkpoint`: read the source message's parent-checkpoint
entry; when that is absent or falsy fall back to the checkpoint containing
the message; when neither resolves raise a 404 (`Except.error`). -/
def resolve_edit_checkpoint (checkpointByMessageId : List (String × String))
    (parentCheckpointByMessageId : List (String × Option String))
    (sourceMessageId : String) : Except String String :=
  let fromParent : Option String :=
    match lookupIndex parentCheckpointByMessageId sourceMessageId with
    | some stored => truthyCheckpoint stored
    | none => none
  let resolved : Option String :=
    match fromParent with
    | some cp => some cp
    | none => truthyCheckpoint (lookupIndex checkpointByMessageId sourceMessageId)
  match resolved with
  | some cp => Except.ok cp
  | none => Except.error ("Edit source checkpoint not found: " ++ sourceMessageId)

/-- A message as stored in a checkpoint: the LangChain message together with
its optional stable `id` attribute. -/
structure StoredMsg where
  id : Option String
  msg : Msg

/-- The serialized role of a message; `none` for tool messages, which
`_serialize_messages` folds into the preceding assistant payload instead of
serializing on their own. -/
def roleOf : Msg → Option String
  | .human _ => some "user"
  | .ai _ _ => some "assistant"
  | .system _ => some "system"
  | .tool _ _ => none

/-- `backend/routes/thread.py` line 243: the message-id column of that file's
`_serialize_messages`, where a message lacking a stable id receives
`str(uuid.uuid4())` — a fresh random draw, modelled as an explicit `supply`
consumed left to right (a falsy empty-string id also triggers the draw). -/
def serializeIdsLocalAux (supply : Nat → String) (fresh : Nat) :
    List StoredMsg → List String
  | [] => []
  | m :: rest =>
    match roleOf m.msg with
    | none => serializeIdsLocalAux supply fresh rest
    | some _ =>
      match m.id with
      | some i =>
        if i == "" then supply fresh :: serializeIdsLocalAux supply (fresh + 1) rest
        else i :: serializeIdsLocalAux supply fresh rest
      | none => supply fresh :: serializeIdsLocalAux supply (fresh + 1) rest

/-- Message ids assigned by `backend/routes/thread.py` `_serialize_messages`
(the serializer mounted by `backend/main.py` through `routes.thread`). -/
def serializeIdsLocal (supply : Nat → String) (messages : List StoredMsg) : List String :=
  serializeIdsLocalAux supply 0 messages

/-- `backend/lib/external_store_langgraph/thread_routes.py` lines 277-280:
the synthetic-id key, built from the snapshot checkpoint id (falling back to
a fixed marker when absent or falsy), the enumeration index, the role and the
stringified content. -/
def syntheticKey (checkpointId : Option String) (index : Nat) (role : String)
    (content : String) : String :=
  (match checkpointId with
   | some c => if c == "" then "no-checkpoint" else c
   | none => "no-checkpoint") ++ ":" ++ toString index ++ ":" ++ role ++ ":" ++ content

/-- The number of `uuid.uuid4()` draws `_serialize_messages` makes for the
assistant tool-call parts of one message
(`backend/lib/external_store_langgraph/thread_routes.py` line 304: a falsy
tool-call id triggers a draw). -/
def missingToolCallIdCount : Msg → Nat
  | .ai _ tcs => (tcs.filter (fun tc => tc.id == none || tc.id == some "")).length
  | _ => 0

/-- `backend/lib/external_store_langgraph/thread_routes.py` lines 273-281:
message-id assignment of that file's `_serialize_messages`. A message whose
stored id is missing or empty receives the deterministic synthetic id
`synthetic-` followed by `u5` of the key built from checkpoint id, position,
role and content; `u5` stands for the fixed pure function
`uuid.uuid5(uuid.NAMESPACE_URL, key)`. The serializer draws `uuid.uuid4()`
only for assistant tool-call parts lacking an id; those draws are modelled by
`supply`/`fresh` so the theorems can show message ids never depend on them. -/
def serializeIdsExternalAux (u5 : String → String) (supply : Nat → String)
    (checkpointId : Option String) (index fresh : Nat) :
    List StoredMsg → List String
  | [] => []
  | m :: rest =>
    match roleOf m.msg with
    | none => serializeIdsExternalAux u5 supply checkpointId (index + 1) fresh rest
    | some role =>
      (match m.id with
       | some i =>
         if i == "" then
           "synthetic-" ++ u5 (syntheticKey checkpointId index role m.msg.contentOf)
         else i
       | none =>
         "synthetic-" ++ u5 (syntheticKey checkpointId index role m.msg.contentOf))
        :: serializeIdsExternalAux u5 supply checkpointId (index + 1)
            (fresh + missingToolCallIdCount m.msg) rest

/-- Message ids assigned by the external-store serializer. -/
def serializeIdsExternal (u5 : String → String) (supply : Nat → String)
    (checkpointId : Option String) (messages : List StoredMsg) : List String :=
  serializeIdsExternalAux u5 supply checkpointId 0 0 messages

/-! ## List helper lemmas -/

theorem takeWhile_append_of_all {α : Type} (p : α → Bool) {l₁ : List α} (l₂ : List α)
    (h : ∀ x ∈ l₁, p x = true) :
    (l₁ ++ l₂).takeWhile p = l₁ ++ l₂.takeWhile p := by
  induction l₁ with
  | nil => simp
  | cons a as ih =>
    have ha := h a (List.mem_cons_self a as)
    simp [List.takeWhile_cons, ha, ih (fun x hx => h x (List.mem_cons_of_mem a hx))]

theorem dropWhile_append_of_all {α : Type} (p : α → Bool) {l₁ : List α} (l₂ : List α)
    (h : ∀ x ∈ l₁, p x = true) :
    (l₁ ++ l₂).dropWhile p = l₂.dropWhile p := by
  induction l₁ with
  | nil => simp
  | cons a as ih =>
    have ha := h a (List.mem_cons_self a as)
    simp [List.dropWhile_cons, ha, ih (fun x hx => h x (List.mem_cons_of_mem a hx))]

/-- Whether a list begins with a tool message. -/
def headIsTool : List Msg → Bool
  | [] => false
  | m :: _ => m.isTool

theorem takeWhile_isTool_of_headNot {l : List Msg} (h : headIsTool l = false) :
    l.takeWhile Msg.isTool = [] := by
  cases l with
  | nil => rfl
  | cons m rest =>
    simp only [headIsTool] at h
    simp [List.takeWhile_cons, h]

theorem dropWhile_isTool_of_headNot {l : List Msg} (h : headIsTool l = false) :
    l.dropWhile Msg.isTool = l := by
  cases l with
  | nil => rfl
  | cons m rest =>
    simp only [headIsTool] at h
    simp [List.dropWhile_cons, h]

/-- Every element of the matched run collected by the sanitizer is a tool
message. -/
theorem matched_all_isTool (tcs : List ToolCall) (rest : List Msg) :
    ∀ x ∈ (rest.takeWhile Msg.isTool).filter (answersCall tcs), Msg.isTool x = true :=
  fun _ hx => List.mem_takeWhile_imp (List.mem_of_mem_filter hx)

/-- The sanitizer never emits a tool message first. -/
theorem sanitize_headIsTool_aux : ∀ (n : Nat) (messages : List Msg), messages.length ≤ n →
    headIsTool (sanitize_and_validate_messages messages) = false := by
  intro n
  induction n with
  | zero =>
    intro messages hlen
    have h0 : messages = [] := List.length_eq_zero.mp (Nat.le_zero.mp hlen)
    subst h0
    simp [sanitize_and_validate_messages, headIsTool]
  | succ n ih =>
    intro messages hlen
    match messages with
    | [] => simp [sanitize_and_validate_messages, headIsTool]
    | Msg.system c :: rest =>
      simp [sanitize_and_validate_messages, headIsTool, Msg.isTool]
    | Msg.human c :: rest =>
      simp [sanitize_and_validate_messages, headIsTool, Msg.isTool]
    | Msg.tool c tid :: rest =>
      have hr : rest.length ≤ n := by simp [List.length_cons] at hlen; omega
      simp only [sanitize_and_validate_messages]
      exact ih rest hr
    | Msg.ai c tcs :: rest =>
      have hr : rest.length ≤ n := by simp [List.length_cons] at hlen; omega
      have hr' : (rest.dropWhile Msg.isTool).length ≤ n :=
        le_trans (List.Sublist.length_le (List.dropWhile_sublist _)) hr
      by_cases hemp : tcs.isEmpty = true
      · simp [sanitize_and_validate_messages, hemp, headIsTool, Msg.isTool]
      · by_cases hall :
          allAnswered tcs ((rest.takeWhile Msg.isTool).filter (answersCall tcs)) = true
        · simp [sanitize_and_validate_messages, hemp, hall, headIsTool, Msg.isTool]
        · simp only [sanitize_and_validate_messages, hemp, hall, if_false, Bool.false_eq_true]
          exact ih _ hr'

theorem sanitize_headIsTool (messages : List Msg) :
    headIsTool (sanitize_and_validate_messages messages) = false :=
  sanitize_headIsTool_aux messages.length messages (le_refl _)

/-- C1, auxiliary strong induction. -/
theorem sanitize_paired_aux : ∀ (n : Nat) (messages : List Msg), messages.length ≤ n →
    toolResponsesPaired (sanitize_and_validate_messages messages) = true := by
  intro n
  induction n with
  | zero =>
    intro messages hlen
    have h0 : messages = [] := List.length_eq_zero.mp (Nat.le_zero.mp hlen)
    subst h0
    simp [sanitize_and_validate_messages, toolResponsesPaired]
  | succ n ih =>
    intro messages hlen
    match messages with
    | [] => simp [sanitize_and_validate_messages, toolResponsesPaired]
    | Msg.system c :: rest =>
      have hr : rest.length ≤ n := by simp [List.length_cons] at hlen; omega
      simp only [sanitize_and_validate_messages, toolResponsesPaired]
      exact ih rest hr
    | Msg.human c :: rest =>
      have hr : rest.length ≤ n := by simp [List.length_cons] at hlen; omega
      simp only [sanitize_and_validate_messages, toolResponsesPaired]
      exact ih rest hr
    | Msg.tool c tid :: rest =>
      have hr : rest.length ≤ n := by simp [List.length_cons] at hlen; omega
      simp only [sanitize_and_validate_messages]
      exact ih rest hr
    | Msg.ai c tcs :: rest =>
      have hr : rest.length ≤ n := by simp [List.length_cons] at hlen; omega
      have hr' : (rest.dropWhile Msg.isTool).length ≤ n :=
        le_trans (List.Sublist.length_le (List.dropWhile_sublist _)) hr
      by_cases hemp : tcs.isEmpty = true
      · simp only [sanitize_and_validate_messages, hemp, if_true, toolResponsesPaired]
        exact ih rest hr
      · by_cases hall :
          allAnswered tcs ((rest.takeWhile Msg.isTool).filter (answersCall tcs)) = true
        · simp only [sanitize_and_validate_messages, hemp, hall, if_true, if_false,
            Bool.false_eq_true, toolResponsesPaired]
          have hmt := matched_all_isTool tcs rest
          have htake :
              ((rest.takeWhile Msg.isTool).filter (answersCall tcs)
                  ++ sanitize_and_validate_messages (rest.dropWhile Msg.isTool)).takeWhile
                Msg.isTool =
              (rest.takeWhile Msg.isTool).filter (answersCall tcs) := by
            rw [takeWhile_append_of_all Msg.isTool _ hmt,
              takeWhile_isTool_of_headNot (sanitize_headIsTool _), List.append_nil]
          have hdrop :
              ((rest.takeWhile Msg.isTool).filter (answersCall tcs)
                  ++ sanitize_and_validate_messages (rest.dropWhile Msg.isTool)).dropWhile
                Msg.isTool =
              sanitize_and_validate_messages (rest.dropWhile Msg.isTool) := by
            rw [dropWhile_append_of_all Msg.isTool _ hmt,
              dropWhile_isTool_of_headNot (sanitize_headIsTool _)]
          rw [htake, hdrop]
          have hallmem :
              ((rest.takeWhile Msg.isTool).filter (answersCall tcs)).all (answersCall tcs)
                = true :=
            List.all_eq_true.mpr (fun x hx => List.of_mem_filter hx)
          simp [hemp, hallmem, hall, ih _ hr']
        · simp only [sanitize_and_validate_messages, hemp, hall, if_false,
            Bool.false_eq_true]
          exact ih _ hr'

/-- C1: every message list produced by the sanitizer satisfies the pairing
invariant — each assistant message carrying tool-call requests is immediately
followed by the contiguous run of tool messages answering exactly its
`tool_call_id`s (all of them answered, no stray answers), and no tool message
appears anywhere else (orphans and partial sequences are gone). -/
theorem sanitize_output_pairing (messages : List Msg) :
    toolResponsesPaired (sanitize_and_validate_messages messages) = true :=
  sanitize_paired_aux messages.length messages (le_refl _)

/-- C2, auxiliary strong induction. -/
theorem sanitize_idem_aux : ∀ (n : Nat) (messages : List Msg), messages.length ≤ n →
    sanitize_and_validate_messages (sanitize_and_validate_messages messages) =
      sanitize_and_validate_messages messages := by
  intro n
  induction n with
  | zero =>
    intro messages hlen
    have h0 : messages = [] := List.length_eq_zero.mp (Nat.le_zero.mp hlen)
    subst h0
    simp [sanitize_and_validate_messages]
  | succ n ih =>
    intro messages hlen
    match messages with
    | [] => simp [sanitize_and_validate_messages]
    | Msg.system c :: rest =>
      have hr : rest.length ≤ n := by simp [List.length_cons] at hlen; omega
      simp only [sanitize_and_validate_messages]
      rw [ih rest hr]
    | Msg.human c :: rest =>
      have hr : rest.length ≤ n := by simp [List.length_cons] at hlen; omega
      simp only [sanitize_and_validate_messages]
      rw [ih rest hr]
    | Msg.tool c tid :: rest =>
      have hr : rest.length ≤ n := by simp [List.length_cons] at hlen; omega
      simp only [sanitize_and_validate_messages]
      exact ih rest hr
    | Msg.ai c tcs :: rest =>
      have hr : rest.length ≤ n := by simp [List.length_cons] at hlen; omega
      have hr' : (rest.dropWhile Msg.isTool).length ≤ n :=
        le_trans (List.Sublist.length_le (List.dropWhile_sublist _)) hr
      by_cases hemp : tcs.isEmpty = true
      · simp only [sanitize_and_validate_messages, hemp, if_true]
        rw [ih rest hr]
      · by_cases hall :
          allAnswered tcs ((rest.takeWhile Msg.isTool).filter (answersCall tcs)) = true
        · have hmt := matched_all_isTool tcs rest
          have htake :
              ((rest.takeWhile Msg.isTool).filter (answersCall tcs)
                  ++ sanitize_and_validate_messages (rest.dropWhile Msg.isTool)).takeWhile
                Msg.isTool =
              (rest.takeWhile Msg.isTool).filter (answersCall tcs) := by
            rw [takeWhile_append_of_all Msg.isTool _ hmt,
              takeWhile_isTool_of_headNot (sanitize_headIsTool _), List.append_nil]
          have hdrop :
              ((rest.takeWhile Msg.isTool).filter (answersCall tcs)
                  ++ sanitize_and_validate_messages (rest.dropWhile Msg.isTool)).dropWhile
                Msg.isTool =
              sanitize_and_validate_messages (rest.dropWhile Msg.isTool) := by
            rw [dropWhile_append_of_all Msg.isTool _ hmt,
              dropWhile_isTool_of_headNot (sanitize_headIsTool _)]
          have hfilt :
              ((rest.takeWhile Msg.isTool).filter (answersCall tcs)).filter
                  (answersCall tcs) =
                (rest.takeWhile Msg.isTool).filter (answersCall tcs) :=
            List.filter_eq_self.mpr (fun x hx => List.of_mem_filter hx)
          conv_lhs =>
            rw [sanitize_and_validate_messages]
          simp only [sanitize_and_validate_messages, hemp, hall, if_true, if_false,
            Bool.false_eq_true]
          simp only [sanitize_and_validate_messages, hemp, if_false, Bool.false_eq_true,
            htake, hdrop, hfilt, hall, if_true]
          rw [ih _ hr']
        · simp only [sanitize_and_validate_messages, hemp, hall, if_false,
            Bool.false_eq_true]
          exact ih _ hr'

/-- C2: the sanitizer is idempotent — sanitizing a list it has already
produced returns that list unchanged. -/
theorem sanitize_idempotent (messages : List Msg) :
    sanitize_and_validate_messages (sanitize_and_validate_messages messages) =
      sanitize_and_validate_messages messages :=
  sanitize_idem_aux messages.length messages (le_refl _)

/-- C10, auxiliary strong induction. -/
theorem sanitize_sublist_aux : ∀ (n : Nat) (messages : List Msg), messages.length ≤ n →
    List.Sublist (sanitize_and_validate_messages messages) messages := by
  intro n
  induction n with
  | zero =>
    intro messages hlen
    have h0 : messages = [] := List.length_eq_zero.mp (Nat.le_zero.mp hlen)
    subst h0
    simp [sanitize_and_validate_messages]
  | succ n ih =>
    intro messages hlen
    match messages with
    | [] => simp [sanitize_and_validate_messages]
    | Msg.system c :: rest =>
      have hr : rest.length ≤ n := by simp [List.length_cons] at hlen; omega
      simp only [sanitize_and_validate_messages]
      exact List.Sublist.cons₂ _ (ih rest hr)
    | Msg.human c :: rest =>
      have hr : rest.length ≤ n := by simp [List.length_cons] at hlen; omega
      simp only [sanitize_and_validate_messages]
      exact List.Sublist.cons₂ _ (ih rest hr)
    | Msg.tool c tid :: rest =>
      have hr : rest.length ≤ n := by simp [List.length_cons] at hlen; omega
      simp only [sanitize_and_validate_messages]
      exact List.Sublist.cons _ (ih rest hr)
    | Msg.ai c tcs :: rest =>
      have hr : rest.length ≤ n := by simp [List.length_cons] at hlen; omega
      have hr' : (rest.dropWhile Msg.isTool).length ≤ n :=
        le_trans (List.Sublist.length_le (List.dropWhile_sublist _)) hr
      by_cases hemp : tcs.isEmpty = true
      · simp only [sanitize_and_validate_messages, hemp, if_true]
        exact List.Sublist.cons₂ _ (ih rest hr)
      · by_cases hall :
          allAnswered tcs ((rest.takeWhile Msg.isTool).filter (answersCall tcs)) = true
        · simp only [sanitize_and_validate_messages, hemp, hall, if_true, if_false,
            Bool.false_eq_true]
          refine List.Sublist.cons₂ _ ?_
          have h3 := List.Sublist.append
            (List.filter_sublist (p := answersCall tcs) (rest.takeWhile Msg.isTool))
            (ih _ hr')
          rwa [List.takeWhile_append_dropWhile] at h3
        · simp only [sanitize_and_validate_messages, hemp, hall, if_false,
            Bool.false_eq_true]
          exact List.Sublist.trans (List.Sublist.trans (ih _ hr')
            (List.dropWhile_sublist _)) (List.sublist_cons_self _ _)

/-- C10: the sanitizer's output is a subsequence of its input — no message is
reordered, duplicated or newly synthesized; every output message occurs in
the input in the same relative order. -/
theorem sanitize_sublist_of_input (messages : List Msg) :
    List.Sublist (sanitize_and_validate_messages messages) messages :=
  sanitize_sublist_aux messages.length messages (le_refl _)

/-- C3: the MODEL_RESPONDED routing decision. When the last message carries no
tool-call requests the turn terminates; the whole batch routes to approval
exactly when at least one requested tool name is in the sensitive set (even
when other calls in the same response are not sensitive); a nonempty batch
with no sensitive name routes to plain tool execution. -/
theorem should_continue_routing (messages : List Msg) (h : messages ≠ []) :
    (requestedToolCalls (messages.getLast h) = [] →
        should_continue messages = Route.stop)
    ∧ (should_continue messages = Route.approval ↔
        ∃ tc ∈ requestedToolCalls (messages.getLast h), tc.name ∈ DANGEROUS_TOOL_NAMES)
    ∧ (requestedToolCalls (messages.getLast h) ≠ [] →
        (∀ tc ∈ requestedToolCalls (messages.getLast h), tc.name ∉ DANGEROUS_TOOL_NAMES) →
        should_continue messages = Route.tools) := by
  have hlast : messages.getLast? = some (messages.getLast h) :=
    List.getLast?_eq_getLast messages h
  unfold should_continue
  rw [hlast]
  cases hm : messages.getLast h with
  | system c => simp [requestedToolCalls]
  | human c => simp [requestedToolCalls]
  | tool c t => simp [requestedToolCalls]
  | ai c tcs =>
    simp only [requestedToolCalls]
    by_cases htcs : tcs = []
    · subst htcs
      simp
    · have hemp : tcs.isEmpty = false := by simp [htcs]
      by_cases hd : tcs.any (fun tc => DANGEROUS_TOOL_NAMES.contains tc.name) = true
      · rw [if_neg (by simp [hemp]), if_pos hd]
        refine ⟨fun h0 => absurd h0 htcs, ?_, ?_⟩
        · constructor
          · intro _
            simpa [List.any_eq_true] using hd
          · intro _
            rfl
        · intro _ hforall
          exfalso
          obtain ⟨tc, htc, hdtc⟩ := List.any_eq_true.mp hd
          exact hforall tc htc (by simpa using hdtc)
      · rw [if_neg (by simp [hemp]), if_neg hd]
        refine ⟨fun h0 => absurd h0 htcs, ?_, fun _ _ => rfl⟩
        constructor
        · intro hcontra
          exact absurd hcontra (by simp)
        · intro ⟨tc, htc, hdtc⟩
          exact absurd (List.any_eq_true.mpr ⟨tc, htc, by simpa using hdtc⟩) hd

/-- The batch of the routing scenario: one sensitive call and one safe call in
the same model response. -/
def demoRoutingMessages : List Msg :=
  [Msg.human "What is the weather in Paris?",
   Msg.ai "" [⟨some "t1", "current_weather", PyVal.vdict [("city", PyVal.vstr "Paris")]⟩,
              ⟨some "t2", "get_current_time", PyVal.vdict []⟩]]

/-- Witness for C3: the mixed batch (one sensitive call, one safe call) is
routed to approval as a whole. -/
theorem should_continue_routing_witness :
    should_continue demoRoutingMessages = Route.approval :=
  (should_continue_routing demoRoutingMessages (by simp [demoRoutingMessages])).2.1.mpr
    ⟨⟨some "t1", "current_weather", PyVal.vdict [("city", PyVal.vstr "Paris")]⟩,
     by simp [demoRoutingMessages, requestedToolCalls, List.getLast],
     by simp [DANGEROUS_TOOL_NAMES]⟩

/-- The decisions map the approval node derives from a resume payload. -/
def recordedDecisions (approval : PyVal) : List (PyVal × PyVal × PyVal) :=
  decisionsById (approval.get "decisions" (PyVal.vlist []))

/-- C4 (amended): the per-call approval policy. A call whose name is not
sensitive is always kept unchanged. A sensitive call whose id is a nonempty
string and whose recorded decision is approved is kept with the override
arguments when the recorded override is an argument object, and kept with its
original arguments when no override was supplied (`None`) and those original
arguments form an object; a supplied override that is not an object causes
the call to be dropped (not kept with its original arguments, contrary to the
claim as stated), as does an original-argument fallback that is not an
object. A sensitive call whose decision is rejected or absent, or whose id is
missing or empty, is dropped. `apply_decision` applies this policy call by
call. -/
theorem approval_gate_policy (calls : List ToolCall) (approval : PyVal) :
    apply_decision calls approval
        = calls.filterMap (approvalKeepCall (recordedDecisions approval))
    ∧ (∀ tc : ToolCall, tc.name ∉ DANGEROUS_TOOL_NAMES →
        approvalKeepCall (recordedDecisions approval) tc = some tc)
    ∧ (∀ tc : ToolCall, ∀ s o, tc.name ∈ DANGEROUS_TOOL_NAMES → tc.id = some s →
        s ≠ "" →
        lookupDecision (recordedDecisions approval) s = some (PyVal.vstr "approved", o) →
        o.isDict = true →
        approvalKeepCall (recordedDecisions approval) tc = some { tc with args := o })
    ∧ (∀ tc : ToolCall, ∀ s, tc.name ∈ DANGEROUS_TOOL_NAMES → tc.id = some s →
        s ≠ "" →
        lookupDecision (recordedDecisions approval) s
            = some (PyVal.vstr "approved", PyVal.vnone) →
        approvalKeepCall (recordedDecisions approval) tc
          = (if tc.args.isDict then some tc else none))
    ∧ (∀ tc : ToolCall, ∀ s o, tc.name ∈ DANGEROUS_TOOL_NAMES → tc.id = some s →
        s ≠ "" →
        lookupDecision (recordedDecisions approval) s = some (PyVal.vstr "approved", o) →
        o.isDict = false → o.isNone = false →
        approvalKeepCall (recordedDecisions approval) tc = none)
    ∧ (∀ tc : ToolCall, ∀ s, tc.name ∈ DANGEROUS_TOOL_NAMES → tc.id = some s →
        s ≠ "" →
        (lookupDecision (recordedDecisions approval) s = none
          ∨ ∃ o, lookupDecision (recordedDecisions approval) s
              = some (PyVal.vstr "rejected", o)) →
        approvalKeepCall (recordedDecisions approval) tc = none)
    ∧ (∀ tc : ToolCall, tc.name ∈ DANGEROUS_TOOL_NAMES →
        (tc.id = none ∨ tc.id = some "") →
        approvalKeepCall (recordedDecisions approval) tc = none) := by
  refine ⟨rfl, ?_, ?_, ?_, ?_, ?_, ?_⟩
  · intro tc hn
    obtain ⟨tid, tname, targs⟩ := tc
    simp only [] at hn
    simp [approvalKeepCall, hn]
  · intro tc s o hn hid hs hlook ho
    obtain ⟨tid, tname, targs⟩ := tc
    simp only [] at hn hid
    subst hid
    have hno : o.isNone = false := by
      cases o <;> simp_all [PyVal.isDict, PyVal.isNone]
    simp [approvalKeepCall, hn, hs, hlook, hno, ho, PyVal.isStr]
  · intro tc s hn hid hs hlook
    obtain ⟨tid, tname, targs⟩ := tc
    simp only [] at hn hid
    subst hid
    simp [approvalKeepCall, hn, hs, hlook, PyVal.isStr, PyVal.isNone]
  · intro tc s o hn hid hs hlook ho hno
    obtain ⟨tid, tname, targs⟩ := tc
    simp only [] at hn hid
    subst hid
    simp [approvalKeepCall, hn, hs, hlook, PyVal.isStr, hno, ho]
  · intro tc s hn hid hs hlook
    obtain ⟨tid, tname, targs⟩ := tc
    simp only [] at hn hid
    subst hid
    rcases hlook with hnone | ⟨o, hrej⟩
    · simp [approvalKeepCall, hn, hs, hnone]
    · simp [approvalKeepCall, hn, hs, hrej, PyVal.isStr]
  · intro tc hn hid
    obtain ⟨tid, tname, targs⟩ := tc
    simp only [] at hn hid
    rcases hid with h0 | h0 <;> subst h0 <;> simp [approvalKeepCall, hn]

/-- A pending sensitive call (`current_weather`) used in the approval-gate
scenarios. -/
def cexCallA : ToolCall :=
  ⟨some "a", "current_weather", PyVal.vdict [("city", PyVal.vstr "Paris")]⟩

/-- A pending safe call (`get_current_time`). -/
def cexCallB : ToolCall := ⟨some "b", "get_current_time", PyVal.vdict []⟩

/-- A resume payload approving call `a` with a malformed (non-object)
argument override. -/
def cexBadOverridePayload : PyVal :=
  PyVal.vdict [("decisions", PyVal.vlist
    [PyVal.vdict [("id", PyVal.vstr "a"), ("decision", PyVal.vstr "approved"),
      ("arguments", PyVal.vstr "oops")]])]

/-- Counterexample to C4 as stated: call `a` is sensitive, approved, and its
argument override is not a well-formed argument object; the claim says it is
kept with its original arguments, but the code drops it — the output batch is
empty. -/
theorem approval_gate_policy_counterexample :
    apply_decision [cexCallA] cexBadOverridePayload = [] := rfl

/-- A resume payload approving call `a` with a well-formed argument
override. -/
def wOverridePayload : PyVal :=
  PyVal.vdict [("decisions", PyVal.vlist
    [PyVal.vdict [("id", PyVal.vstr "a"), ("decision", PyVal.vstr "approved"),
      ("arguments", PyVal.vdict [("city", PyVal.vstr "Tokyo")])]])]

/-- Witness for C4: at the concrete payload the approved sensitive call is
kept and its arguments are replaced by the supplied override object. -/
theorem approval_gate_policy_witness :
    approvalKeepCall (recordedDecisions wOverridePayload) cexCallA
      = some { cexCallA with args := PyVal.vdict [("city", PyVal.vstr "Tokyo")] } :=
  (approval_gate_policy [] wOverridePayload).2.2.1 cexCallA "a"
    (PyVal.vdict [("city", PyVal.vstr "Tokyo")])
    (by simp [cexCallA, DANGEROUS_TOOL_NAMES]) rfl (by simp) rfl rfl

/-- The suspended state of the rejection scenario: the model requested the
sensitive `current_weather` call. -/
def c5Messages : List Msg :=
  [Msg.human "What is the weather in Paris?",
   Msg.ai "" [⟨some "t1", "current_weather", PyVal.vdict [("city", PyVal.vstr "Paris")]⟩]]

/-- A resume payload rejecting the pending call `t1`. -/
def c5RejectPayload : PyVal :=
  PyVal.vdict [("decisions", PyVal.vlist
    [PyVal.vdict [("id", PyVal.vstr "t1"), ("decision", PyVal.vstr "rejected")]])]

/-- C5 (code evaluation at the failing input): resuming the approval node
with a rejection returns only the re-issued assistant message with the
rejected call removed — no tool-role message at all, and in particular no
synthetic tool-result with content "Tool call rejected by user.", contrary to
the claim and to the docstring of `approval_node` (graph.py lines 126-130)
which promises rejection messages. -/
theorem approval_node_rejection_produces_no_tool_message :
    approval_node c5Messages c5RejectPayload = [Msg.ai "" []] := rfl

/-- A legacy-schema resume payload: a plain partition with `approved_ids`. -/
def c6LegacyPayload : PyVal :=
  PyVal.vdict [("approved_ids", PyVal.vlist [PyVal.vstr "a"])]

/-- Counterexample to C6 as stated: under the legacy partition payload the
approval node reads only `decisions` (absent here), so the approved sensitive
call `a` is not kept — only the safe call `b` survives, while the claim
expects both. -/
theorem legacy_schema_counterexample :
    apply_decision [cexCallA, cexCallB] c6LegacyPayload = [cexCallB]
    ∧ cexCallA ∉ apply_decision [cexCallA, cexCallB] c6LegacyPayload := by
  constructor
  · rfl
  · intro hmem
    rw [show apply_decision [cexCallA, cexCallB] c6LegacyPayload = [cexCallB] from rfl]
      at hmem
    simp [cexCallA, cexCallB] at hmem

/-- C6 (amended): the legacy partition schema is not honored. Whenever the
resume payload yields no recognized per-call decision entries (in particular
when it only carries `approved_ids`/`rejected_ids`), every sensitive call is
dropped as undecided and exactly the non-sensitive calls survive,
unchanged. -/
theorem legacy_schema_ignored (calls : List ToolCall) (approval : PyVal)
    (h : decisionsById (approval.get "decisions" (PyVal.vlist [])) = []) :
    apply_decision calls approval
      = calls.filter (fun tc => !(DANGEROUS_TOOL_NAMES.contains tc.name)) := by
  unfold apply_decision
  rw [h]
  induction calls with
  | nil => rfl
  | cons tc rest ih =>
    by_cases hn : DANGEROUS_TOOL_NAMES.contains tc.name = true
    · have hm : tc.name ∈ DANGEROUS_TOOL_NAMES := by simpa using hn
      have hkeep : approvalKeepCall [] tc = none := by
        obtain ⟨tid, tname, targs⟩ := tc
        simp only [] at hm
        cases tid with
        | none => simp [approvalKeepCall, hm]
        | some s => simp [approvalKeepCall, hm, lookupDecision]
      rw [List.filterMap_cons_none hkeep, List.filter_cons, if_neg (by simp [hm]), ih]
    · have hm : tc.name ∉ DANGEROUS_TOOL_NAMES := by simpa using hn
      have hkeep : approvalKeepCall [] tc = some tc := by
        obtain ⟨tid, tname, targs⟩ := tc
        simp only [] at hm
        simp [approvalKeepCall, hm]
      rw [List.filterMap_cons_some hkeep, List.filter_cons, if_pos (by simp [hm]), ih]

/-- Witness for C6 (amended): at the legacy payload of the claim only the
safe call `b` survives. -/
theorem legacy_schema_ignored_witness :
    apply_decision [cexCallA, cexCallB] c6LegacyPayload
      = List.filter (fun tc => !(DANGEROUS_TOOL_NAMES.contains tc.name))
          [cexCallA, cexCallB] :=
  legacy_schema_ignored [cexCallA, cexCallB] c6LegacyPayload rfl

/-- C7: a tool invocation that raises (or names an unknown tool, which also
takes the error path) yields, at the same position `k` of the round's
outputs, a tool-role message carrying the error payload and the request's own
`tool_call_id`; the round produces one result message per request, and the
loop-break test only fires on an empty batch, so the turn is not terminated
and the model is called again. -/
theorem tool_failure_recovered (tools : ToolRegistry) (states : List (Nat × ToolState))
    (k : Nat) (e : String) (hk : k < states.length)
    (herr : invokeTool tools (effectiveToolName states[k]) states[k].2.args
      = (errorPayload e, true)) :
    (executeToolRound tools states).2.length = states.length
    ∧ ((executeToolRound tools states).2)[k]? =
        some (Msg.tool (errorPayload e).dump states[k].2.toolCallId)
    ∧ loopBreaks states = false := by
  refine ⟨by simp [executeToolRound], ?_, ?_⟩
  · have hmap : ((executeToolRound tools states).2)[k]? =
        (states[k]?).map (fun s => (roundEntry tools s).2) := by
      simp [executeToolRound, List.getElem?_map]
    rw [hmap, List.getElem?_eq_getElem hk]
    simp only [Option.map_some', roundEntry, herr]
  · unfold loopBreaks
    cases states with
    | nil => simp at hk
    | cons a as => rfl

/-- A registry with a single raising tool, for the failure scenario. -/
def demoFailingTools : ToolRegistry :=
  [("current_weather", fun _ => Except.error "weather service unavailable")]

/-- The accumulated tool state requesting the raising tool. -/
def demoFailingStates : List (Nat × ToolState) :=
  [(0, ⟨"t1", "current_weather", PyVal.vdict [("city", PyVal.vstr "Paris")], ""⟩)]

/-- Witness for C7: the raising invocation produces the error tool message
for `t1` and the loop does not break. -/
theorem tool_failure_recovered_witness :
    ((executeToolRound demoFailingTools demoFailingStates).2)[0]? =
        some (Msg.tool (errorPayload "weather service unavailable").dump "t1")
    ∧ loopBreaks demoFailingStates = false :=
  (tool_failure_recovered demoFailingTools demoFailingStates 0
    "weather service unavailable" (by decide) rfl).2

/-- The checkpoint index of the C8 scenario: message `m1` lives in the root
checkpoint `cp1`. -/
def c8CheckpointIndex : List (String × String) := [("m1", "cp1")]

/-- The parent index of the C8 scenario: `m1` has no parent checkpoint
recorded (it first appeared in a root checkpoint). -/
def c8ParentIndex : List (String × Option String) := [("m1", none)]

/-- Counterexample to C8 as stated: `m1` is present in the index but has no
parent checkpoint, and resolution neither fails with NotFound nor returns a
parent checkpoint — it falls back to `cp1`, the checkpoint containing the
message, which the claim explicitly excludes. -/
theorem resolve_edit_counterexample :
    resolve_edit_checkpoint c8CheckpointIndex c8ParentIndex "m1" = Except.ok "cp1"
    ∧ lookupIndex c8ParentIndex "m1" = some none
    ∧ lookupIndex c8CheckpointIndex "m1" = some "cp1" :=
  ⟨rfl, rfl, rfl⟩

/-- C8 (amended): edit resolution returns the source message's parent
checkpoint whenever a non-falsy one is recorded; when the parent entry is
absent or falsy it falls back to the checkpoint containing the message; it
fails with NotFound (the 404-carrying error) only when neither index yields a
non-falsy checkpoint — in particular whenever the message id is absent from
both indexes. -/
theorem resolve_edit_checkpoint_spec (cpIdx : List (String × String))
    (parentIdx : List (String × Option String)) (mid : String) :
    (∀ cp, lookupIndex parentIdx mid = some (some cp) → cp ≠ "" →
        resolve_edit_checkpoint cpIdx parentIdx mid = Except.ok cp)
    ∧ ((lookupIndex parentIdx mid = none ∨ lookupIndex parentIdx mid = some none
          ∨ lookupIndex parentIdx mid = some (some "")) →
        (∀ cp, lookupIndex cpIdx mid = some cp → cp ≠ "" →
            resolve_edit_checkpoint cpIdx parentIdx mid = Except.ok cp)
        ∧ ((lookupIndex cpIdx mid = none ∨ lookupIndex cpIdx mid = some "") →
            resolve_edit_checkpoint cpIdx parentIdx mid
              = Except.error ("Edit source checkpoint not found: " ++ mid))) := by
  constructor
  · intro cp hp hcp
    unfold resolve_edit_checkpoint
    simp [hp, truthyCheckpoint, hcp]
  · intro hp
    have hparent :
        (match lookupIndex parentIdx mid with
         | some stored => truthyCheckpoint stored
         | none => none) = (none : Option String) := by
      rcases hp with h0 | h0 | h0 <;> simp [h0, truthyCheckpoint]
    constructor
    · intro cp hc hcp
      unfold resolve_edit_checkpoint
      rw [hparent]
      simp [hc, truthyCheckpoint, hcp]
    · intro hc
      unfold resolve_edit_checkpoint
      rw [hparent]
      rcases hc with h0 | h0 <;> simp [h0, truthyCheckpoint]

/-- Witness for C8 (amended): the fallback branch at the concrete root-message
scenario resolves to the containing checkpoint. -/
theorem resolve_edit_checkpoint_spec_witness :
    resolve_edit_checkpoint c8CheckpointIndex c8ParentIndex "m1" = Except.ok "cp1" :=
  ((resolve_edit_checkpoint_spec c8CheckpointIndex c8ParentIndex "m1").2
    (Or.inr (Or.inl rfl))).1 "cp1" rfl (by decide)

/-- A stored history whose single message lacks a stable id. -/
def c9Stored : List StoredMsg := [⟨none, Msg.human "hello"⟩]

/-- One run of random uuid4 draws. -/
def c9SupplyA : Nat → String := fun _ => "uuid-run-a"

/-- A different run of random uuid4 draws. -/
def c9SupplyB : Nat → String := fun _ => "uuid-run-b"

/-- Counterexample to C9 as stated: the serializer actually mounted by
`backend/main.py` (`routes/thread.py`) assigns a fresh random uuid4 to a
message lacking a stable id, so two serializations of the same stored history
yield different message ids — reconstruction is not two-run deterministic. -/
theorem serialize_ids_counterexample :
    serializeIdsLocal c9SupplyA c9Stored = ["uuid-run-a"]
    ∧ serializeIdsLocal c9SupplyB c9Stored = ["uuid-run-b"]
    ∧ serializeIdsLocal c9SupplyA c9Stored ≠ serializeIdsLocal c9SupplyB c9Stored := by
  refine ⟨rfl, rfl, ?_⟩
  intro hcontra
  rw [show serializeIdsLocal c9SupplyA c9Stored = ["uuid-run-a"] from rfl,
    show serializeIdsLocal c9SupplyB c9Stored = ["uuid-run-b"] from rfl] at hcontra
  simp at hcontra

/-- C9 (amended): only the external-store serializer
(`backend/lib/external_store_langgraph/thread_routes.py`) is two-run
deterministic — its message ids (stable ids kept, missing ids replaced by the
synthetic id derived from checkpoint id, position, role and content through
the fixed pure `uuid5`) never depend on the stream of random uuid4 draws, so
serializing the same checkpoint history twice yields identical message ids;
the serializer in `backend/routes/thread.py` does not have this property. -/
theorem serialize_ids_external_supply_independent (u5 : String → String)
    (s₁ s₂ : Nat → String) (cp : Option String) (messages : List StoredMsg) :
    serializeIdsExternal u5 s₁ cp messages = serializeIdsExternal u5 s₂ cp messages := by
  unfold serializeIdsExternal
  suffices h : ∀ (msgs : List StoredMsg) (idx f₁ f₂ : Nat),
      serializeIdsExternalAux u5 s₁ cp idx f₁ msgs
        = serializeIdsExternalAux u5 s₂ cp idx f₂ msgs from
    h messages 0 0 0
  intro msgs
  induction msgs with
  | nil =>
    intro idx f₁ f₂
    rfl
  | cons m rest ih =>
    intro idx f₁ f₂
    simp only [serializeIdsExternalAux]
    cases hrole : roleOf m.msg with
    | none => exact ih (idx + 1) f₁ f₂
    | some role => rw [ih (idx + 1) (f₁ + missingToolCallIdCount m.msg)
        (f₂ + missingToolCallIdCount m.msg)]

end Backend
